import Mathlib

/-!
Verification development for the x402-guard policy-enforcement engine.

The definitions below are a shallow embedding of the TypeScript sources:

* `src/policy/budget.ts` — `SpendEvent`, `RollingBudget` with `prune`, `getTotal`,
  `canSpend`, `record`.  JavaScript `bigint` amounts and millisecond timestamps are
  modelled as `Int`; the mutable event array is threaded explicitly as state.
* `src/policy/policy.ts` — `GuardPolicy` and friends, `validatePolicy`,
  `parseUsdcAmountBaseUnits` (JavaScript `BigInt(string)` semantics) and
  `usdToUsdcBaseUnits` (USD numbers are modelled as exact rationals `ℚ`).
* `src/policy/requirements.ts` — `evaluatePaymentRequirements`.
* `src/policy/conditions.ts` — `enforceResponseConditions` over a JSON value model.
* `src/guard.ts` — the constructor validation, the requirement-filtering hook,
  the before- and after-payment-creation hooks and the error classification done by
  `X402Guard.fetch` when the wrapped payment fetch rejects.

Effectful code (array mutation in the budget, thrown exceptions) is embedded as
explicit state passing and `Except`/`Option` results; everything is executable.
-/

/-! ## Rolling budget ledger (`src/policy/budget.ts`) -/

/-- One spend event: a millisecond timestamp and an amount in USDC base units. -/
structure SpendEvent where
  ts : Int
  amountBaseUnits : Int
deriving DecidableEq, Repr

/-- State of a rolling budget: window length, limit, and the events array. -/
structure RollingBudget where
  windowMs : Int
  limitBaseUnits : Int
  events : List SpendEvent
deriving DecidableEq, Repr

/-- Sum of the amounts of a list of events, as `events.reduce((acc, e) => acc + e.amountBaseUnits, 0n)`. -/
def sumAmounts (es : List SpendEvent) : Int :=
  es.foldl (fun acc e => acc + e.amountBaseUnits) 0

/-- `prune(now)`: keep only events with `e.ts >= now - windowMs`. -/
def RollingBudget.prune (b : RollingBudget) (now : Int) : RollingBudget :=
  { b with events := b.events.filter (fun e => now - b.windowMs ≤ e.ts) }

/-- `getTotal(now)`: prune, then sum the remaining amounts.  Returns the total and
the post-prune state (the TypeScript method mutates `this.events`). -/
def RollingBudget.getTotal (b : RollingBudget) (now : Int) : Int × RollingBudget :=
  let b' := b.prune now
  (sumAmounts b'.events, b')

/-- Result of `canSpend`: `{ ok: true }` or `{ ok: false, total }`. -/
inductive SpendCheck where
  | ok : SpendCheck
  | rejected (total : Int) : SpendCheck
deriving DecidableEq, Repr

/-- `canSpend(amountBaseUnits, now)`: reject when `total + amount > limit`. -/
def RollingBudget.canSpend (b : RollingBudget) (amountBaseUnits now : Int) :
    SpendCheck × RollingBudget :=
  let t := b.getTotal now
  if b.limitBaseUnits < t.1 + amountBaseUnits then (.rejected t.1, t.2) else (.ok, t.2)

/-- `record(amountBaseUnits, now)`: prune, then push `{ ts: now, amountBaseUnits }`. -/
def RollingBudget.record (b : RollingBudget) (amountBaseUnits now : Int) : RollingBudget :=
  let b' := b.prune now
  { b' with events := b'.events ++ [⟨now, amountBaseUnits⟩] }

/-- Run a sequence of `record(amount, t)` calls, first element first. -/
def runRecords (b : RollingBudget) (calls : List (Int × Int)) : RollingBudget :=
  calls.foldl (fun acc c => acc.record c.1 c.2) b

/-- Modelled from the spec: the total the specification ascribes to `query(t)` —
the sum of `amount_i` over exactly the calls with `t - windowMs ≤ t_i ≤ t`. -/
def specQueryWindowSum (windowMs t : Int) (calls : List (Int × Int)) : Int :=
  ((calls.filter (fun c => t - windowMs ≤ c.2 ∧ c.2 ≤ t)).map (fun c => c.1)).sum

theorem sumAmounts_nil : sumAmounts [] = 0 := rfl

theorem foldl_add_amount (es : List SpendEvent) (init : Int) :
    es.foldl (fun acc e => acc + e.amountBaseUnits) init
      = init + es.foldl (fun acc e => acc + e.amountBaseUnits) 0 := by
  induction es generalizing init with
  | nil => simp
  | cons e es ih =>
    rw [List.foldl_cons, List.foldl_cons, ih (init + e.amountBaseUnits),
      ih (0 + e.amountBaseUnits)]
    ring

theorem sumAmounts_cons (e : SpendEvent) (es : List SpendEvent) :
    sumAmounts (e :: es) = e.amountBaseUnits + sumAmounts es := by
  simp only [sumAmounts, List.foldl_cons]
  rw [foldl_add_amount es (0 + e.amountBaseUnits)]
  ring

theorem sumAmounts_append (l₁ l₂ : List SpendEvent) :
    sumAmounts (l₁ ++ l₂) = sumAmounts l₁ + sumAmounts l₂ := by
  induction l₁ with
  | nil => simp [sumAmounts_nil]
  | cons e es ih =>
    rw [List.cons_append, sumAmounts_cons, sumAmounts_cons, ih]
    ring

theorem prune_windowMs (b : RollingBudget) (now : Int) :
    (b.prune now).windowMs = b.windowMs := rfl

theorem record_windowMs (b : RollingBudget) (a now : Int) :
    (b.record a now).windowMs = b.windowMs := rfl

theorem getTotal_prune (b : RollingBudget) (τ t : Int) (h : τ ≤ t) :
    ((b.prune τ).getTotal t).1 = (b.getTotal t).1 := by
  simp only [RollingBudget.getTotal, RollingBudget.prune, List.filter_filter]
  refine congrArg sumAmounts (List.filter_congr ?_)
  intro e _
  by_cases hp : t - b.windowMs ≤ e.ts
  · have hq : τ - b.windowMs ≤ e.ts := le_trans (by linarith) hp
    simp [hp, hq]
  · simp [hp]

theorem getTotal_record (b : RollingBudget) (a τ t : Int) (h : t - b.windowMs ≤ τ) :
    ((b.record a τ).getTotal t).1 = ((b.prune τ).getTotal t).1 + a := by
  simp only [RollingBudget.record, RollingBudget.getTotal, RollingBudget.prune,
    List.filter_append, sumAmounts_append]
  have hev : List.filter (fun e => decide (t - b.windowMs ≤ e.ts))
      [(⟨τ, a⟩ : SpendEvent)] = [⟨τ, a⟩] := by
    simp [List.filter, h]
  rw [hev]
  simp [sumAmounts_cons, sumAmounts_nil]

theorem getTotal_record_out (b : RollingBudget) (a τ t : Int) (h : τ < t - b.windowMs) :
    ((b.record a τ).getTotal t).1 = ((b.prune τ).getTotal t).1 := by
  simp only [RollingBudget.record, RollingBudget.getTotal, RollingBudget.prune,
    List.filter_append, sumAmounts_append]
  have hev : List.filter (fun e => decide (t - b.windowMs ≤ e.ts))
      [(⟨τ, a⟩ : SpendEvent)] = [] := by
    simp [List.filter, not_le.mpr h]
  rw [hev]
  simp [sumAmounts_nil]

theorem specQueryWindowSum_nil (w t : Int) : specQueryWindowSum w t [] = 0 := rfl

theorem specQueryWindowSum_cons (w t : Int) (c : Int × Int) (cs : List (Int × Int)) :
    specQueryWindowSum w t (c :: cs)
      = (if t - w ≤ c.2 ∧ c.2 ≤ t then c.1 else 0) + specQueryWindowSum w t cs := by
  unfold specQueryWindowSum
  by_cases hc : t - w ≤ c.2 ∧ c.2 ≤ t
  · rw [List.filter_cons_of_pos (by simpa using hc), if_pos hc, List.map_cons,
      List.sum_cons]
  · rw [List.filter_cons_of_neg (by simpa using hc), if_neg hc, zero_add]

theorem runRecords_total (calls : List (Int × Int)) (b : RollingBudget) (t : Int)
    (h : ∀ c ∈ calls, c.2 ≤ t) :
    ((runRecords b calls).getTotal t).1
      = (b.getTotal t).1 + specQueryWindowSum b.windowMs t calls := by
  induction calls generalizing b with
  | nil => simp [runRecords, specQueryWindowSum_nil]
  | cons c cs ih =>
    have hct : c.2 ≤ t := h c (List.mem_cons_self c cs)
    have hrun : runRecords b (c :: cs) = runRecords (b.record c.1 c.2) cs := rfl
    have hcs : ∀ x ∈ cs, x.2 ≤ t := fun x hx => h x (List.mem_cons_of_mem c hx)
    rw [hrun, ih (b.record c.1 c.2) hcs, record_windowMs, specQueryWindowSum_cons]
    by_cases hin : t - b.windowMs ≤ c.2
    · rw [getTotal_record b c.1 c.2 t hin, getTotal_prune b c.2 t hct,
        if_pos ⟨hin, hct⟩]
      ring
    · rw [getTotal_record_out b c.1 c.2 t (not_le.mp hin), getTotal_prune b c.2 t hct,
        if_neg (fun hc => hin hc.1)]
      ring

/-- C2 (counterexample): the claim "query(t) equals the sum of amount_i over all i with
t - windowMs ≤ t_i ≤ t" is false as stated: with windowMs = 1000, recording amount 5 at
t_1 = 100 and querying at t = 0, the code returns 5 (the event's timestamp 100 is above
the lower cutoff -1000 and the upper bound t is never checked), while the specified sum
over timestamps in [-1000, 0] is 0. -/
theorem c2_rolling_query_counterexample :
    ¬ (((runRecords ⟨1000, 100, []⟩ [(5, 100)]).getTotal 0).1
        = specQueryWindowSum 1000 0 [(5, 100)]) := by decide

/-- C2 (amended): for every sequence of `record(amount_i, t_i)` calls whose timestamps
all satisfy `t_i ≤ t`, querying at `t` returns exactly the sum of `amount_i` over the
calls with `t - windowMs ≤ t_i ≤ t`: no expired event is counted and no in-window event
is lost to double-eviction.  (The proviso `t_i ≤ t` is forced by the counterexample:
the ledger enforces only the window's lower bound, so an event recorded in the future
of the query time is counted even though the claimed formula excludes it.) -/
theorem c2_rolling_query_eq_window_sum (windowMs limitBaseUnits t : Int)
    (calls : List (Int × Int)) (h : ∀ c ∈ calls, c.2 ≤ t) :
    ((runRecords ⟨windowMs, limitBaseUnits, []⟩ calls).getTotal t).1
      = specQueryWindowSum windowMs t calls := by
  rw [runRecords_total calls ⟨windowMs, limitBaseUnits, []⟩ t h]
  simp [RollingBudget.getTotal, RollingBudget.prune, sumAmounts_nil]

/-- Witness for C2: budget window 1000 ms, record 30 at t=1000 and 40 at t=1500, then
query at t=1500: the ledger total equals the specified window sum, namely 70. -/
theorem c2_rolling_query_eq_window_sum_witness :
    ((runRecords ⟨1000, 100, []⟩ [(30, 1000), (40, 1500)]).getTotal 1500).1
      = specQueryWindowSum 1000 1500 [(30, 1000), (40, 1500)]
    ∧ specQueryWindowSum 1000 1500 [(30, 1000), (40, 1500)] = 70 :=
  ⟨c2_rolling_query_eq_window_sum 1000 100 1500 [(30, 1000), (40, 1500)] (by decide),
    by decide⟩

/-- C5 (confirmed): `canSpend(amount, t)` rejects exactly when `query(t) + amount`
strictly exceeds the limit — so a spend that lands exactly on the limit is admitted —
and whenever it rejects, the total it reports equals `query(t)` at that instant. -/
theorem c5_canSpend_rejects_iff (b : RollingBudget) (amount t : Int) :
    ((b.canSpend amount t).1 = SpendCheck.rejected ((b.getTotal t).1)
        ↔ b.limitBaseUnits < (b.getTotal t).1 + amount)
    ∧ (∀ total, (b.canSpend amount t).1 = SpendCheck.rejected total
        → total = (b.getTotal t).1) := by
  simp only [RollingBudget.canSpend]
  by_cases hlt : b.limitBaseUnits < (b.getTotal t).1 + amount
  · constructor
    · simp [hlt]
    · intro total h
      simp only [if_pos hlt] at h
      exact (SpendCheck.rejected.injEq _ _).mp h.symm
  · constructor
    · simp [hlt]
    · intro total h
      simp only [if_neg hlt] at h
      exact absurd h (by simp)

/-- Witness for C5: window 1000, limit 10, one event of 8 at ts 0; at t = 100 the total
is 8, and a spend of 5 is rejected (8 + 5 > 10) reporting total 8. -/
theorem c5_canSpend_rejects_iff_witness :
    (8 : Int) = (((⟨1000, 10, [⟨0, 8⟩]⟩ : RollingBudget)).getTotal 100).1 :=
  (c5_canSpend_rejects_iff ⟨1000, 10, [⟨0, 8⟩]⟩ 5 100).2 8 (by decide)

/-- C10 (confirmed): the ledger enforces only the lower bound of the window.
`getTotal(t)` sums every stored event with `t - windowMs ≤ ts`, with no upper filter at
`t`; consequently recording an amount at any `t1` with `t - windowMs ≤ t1` — including
`t1` strictly in the future of the query time `t` — adds that amount to `query(t)`. -/
theorem c10_getTotal_lower_bound_only (b : RollingBudget) (t : Int) :
    (b.getTotal t).1 = sumAmounts (b.events.filter (fun e => t - b.windowMs ≤ e.ts))
    ∧ (∀ a t1, t - b.windowMs ≤ t1 →
        ((b.record a t1).getTotal t).1 = ((b.prune t1).getTotal t).1 + a) :=
  ⟨rfl, fun a t1 h => getTotal_record b a t1 t h⟩

/-- Witness for C10: an empty ledger with window 1000; record 5 at t1 = 100 and query at
t = 0 < t1: the future-dated event is counted and the total is 5. -/
theorem c10_getTotal_lower_bound_only_witness :
    (((RollingBudget.mk 1000 100 []).record 5 100).getTotal 0).1
        = (((RollingBudget.mk 1000 100 []).prune 100).getTotal 0).1 + 5
    ∧ (((RollingBudget.mk 1000 100 []).record 5 100).getTotal 0).1 = 5
    ∧ (0 : Int) < 100 :=
  ⟨(c10_getTotal_lower_bound_only ⟨1000, 100, []⟩ 0).2 5 100 (by decide),
    by decide, by decide⟩

/-! ## Unit conversion, amount parsing and policy validation (`src/policy/policy.ts`) -/

/-- A parsed JSON value, as produced by JavaScript `JSON.parse`. -/
inductive JsVal where
  | jnull : JsVal
  | jbool (b : Bool) : JsVal
  | jnum (n : Int) : JsVal
  | jstr (s : String) : JsVal
  | jarr (elems : List JsVal) : JsVal
  | jobj (fields : List (String × JsVal)) : JsVal

/-- The canonical array-index reading of a property name, as used by JavaScript
property access on arrays and strings (only canonical numerals index). -/
def canonicalIndex (f : String) : Option Nat :=
  match f.toNat? with
  | some i => if toString i = f then some i else none
  | none => none

/-- JavaScript property access `v?.[f]` on a JSON value: `none` models `undefined`.
Objects look up own fields; arrays and strings expose `length` and index access;
every other primitive has no properties. -/
def jsProp : JsVal → String → Option JsVal
  | .jobj fields, f => (fields.find? (fun kv => kv.1 = f)).map (fun kv => kv.2)
  | .jarr elems, f =>
      if f = "length" then some (.jnum elems.length)
      else match canonicalIndex f with
        | some i => elems[i]?
        | none => none
  | .jstr s, f =>
      if f = "length" then some (.jnum s.length)
      else match canonicalIndex f with
        | some i => (s.toList[i]?).map (fun c => .jstr (String.mk [c]))
        | none => none
  | _, _ => none

/-- JavaScript string whitespace, as trimmed by `BigInt(string)` (the common ASCII
whitespace characters; exotic Unicode space code points are immaterial here). -/
def isJsWhitespace (c : Char) : Bool :=
  c = ' ' || c = '\t' || c = '\n' || c = '\r' || c = '\x0b' || c = '\x0c'

/-- Value of one digit character in the given base, if valid. -/
def digitVal (base : Nat) (c : Char) : Option Nat :=
  let v : Option Nat :=
    if '0' ≤ c ∧ c ≤ '9' then some (c.toNat - '0'.toNat)
    else if 'a' ≤ c ∧ c ≤ 'f' then some (c.toNat - 'a'.toNat + 10)
    else if 'A' ≤ c ∧ c ≤ 'F' then some (c.toNat - 'A'.toNat + 10)
    else none
  match v with
  | some d => if d < base then some d else none
  | none => none

def parseDigitsAux (base : Nat) : Nat → List Char → Option Nat
  | acc, [] => some acc
  | acc, c :: cs =>
    match digitVal base c with
    | some d => parseDigitsAux base (base * acc + d) cs
    | none => none

/-- Parse a non-empty all-digit string in the given base. -/
def parseDigits (base : Nat) (cs : List Char) : Option Nat :=
  match cs with
  | [] => none
  | _ => parseDigitsAux base 0 cs

/-- Trim JavaScript whitespace from both ends. -/
def trimJs (cs : List Char) : List Char :=
  ((cs.dropWhile isJsWhitespace).reverse.dropWhile isJsWhitespace).reverse

/-- ECMAScript `BigInt(string)` (`StringToBigInt`): trims whitespace; an empty remainder
is 0; `0x`/`0o`/`0b` prefixes select a base (no sign allowed); otherwise an optional
sign followed by at least one decimal digit; anything else throws (`none`). -/
def stringToBigInt (s : String) : Option Int :=
  match trimJs s.toList with
  | [] => some 0
  | '0' :: 'x' :: rest => (parseDigits 16 rest).map Int.ofNat
  | '0' :: 'X' :: rest => (parseDigits 16 rest).map Int.ofNat
  | '0' :: 'o' :: rest => (parseDigits 8 rest).map Int.ofNat
  | '0' :: 'O' :: rest => (parseDigits 8 rest).map Int.ofNat
  | '0' :: 'b' :: rest => (parseDigits 2 rest).map Int.ofNat
  | '0' :: 'B' :: rest => (parseDigits 2 rest).map Int.ofNat
  | '+' :: rest => (parseDigits 10 rest).map Int.ofNat
  | '-' :: rest => (parseDigits 10 rest).map (fun n => -(n : Int))
  | cs => (parseDigits 10 cs).map Int.ofNat

/-- An x402 v2 payment requirement.  `amount` is `none` when the field is absent or not
a string (`typeof req.amount !== "string"`); other protocol fields are kept so that the
audit snapshot (a strict subset of fields) is meaningful. -/
structure PaymentRequirements where
  scheme : String
  network : String
  amount : Option String
  asset : String
  payTo : String
  maxTimeoutSeconds : Int := 60
deriving DecidableEq, Repr

/-- `parseUsdcAmountBaseUnits(req)`: `BigInt(req.amount)` or `null`. -/
def parseUsdcAmountBaseUnits (r : PaymentRequirements) : Option Int :=
  r.amount.bind stringToBigInt

/-- `usdToUsdcBaseUnits(usd)`: `BigInt(Math.floor(usd * 1_000_000))`, with the USD
number modelled as an exact rational. -/
def usdToUsdcBaseUnits (usd : ℚ) : Int :=
  ⌊usd * 1000000⌋

/-- Response-condition policy (`GuardConditions`); absent optional fields are `none`,
and the absent `requireHttp2xx` flag is `false` (both are falsy in the source). -/
structure GuardConditions where
  requireHttp2xx : Bool := false
  maxLatencyMs : Option Int := none
  requiredJsonFields : Option (List String) := none
deriving DecidableEq, Repr

/-- Rolling budget-window policy (`BudgetWindowPolicy`). -/
structure BudgetWindowPolicy where
  limitUsd : ℚ
  windowMs : Int
deriving DecidableEq, Repr

/-- Guard policy (`GuardPolicy`); absent optional fields are `none`, and the absent
`selectCheapest` flag is `false`. -/
structure GuardPolicy where
  maxPerPaymentUsd : Option ℚ := none
  budget : Option BudgetWindowPolicy := none
  conditions : Option GuardConditions := none
  selectCheapest : Bool := false
deriving DecidableEq

/-- The `conditions` checks of `validatePolicy`: `maxLatencyMs > 0` if present.  (The
`requiredJsonFields` `Array.isArray` check always passes in this typed model, where the
field can only hold a list.) -/
def validateConditionsStage (policy : GuardPolicy) : Except String Unit :=
  match policy.conditions with
  | none => .ok ()
  | some c =>
    match c.maxLatencyMs with
    | some m =>
      if 0 < m then .ok () else .error "policy.conditions.maxLatencyMs must be > 0"
    | none => .ok ()

/-- The `budget` checks of `validatePolicy`, then the `conditions` checks. -/
def validateBudgetStage (policy : GuardPolicy) : Except String Unit :=
  match policy.budget with
  | none => validateConditionsStage policy
  | some bw =>
    if 0 < bw.limitUsd then
      if 0 < bw.windowMs then validateConditionsStage policy
      else .error "policy.budget.windowMs must be > 0"
    else .error "policy.budget.limitUsd must be > 0"

/-- `validatePolicy(policy)`: checks run in source order — per-payment cap, budget
limit, budget window, max latency, required-fields shape — throwing (`.error`) on the
first violated invariant. -/
def validatePolicy (policy : GuardPolicy) : Except String Unit :=
  match policy.maxPerPaymentUsd with
  | some cap =>
    if 0 < cap then validateBudgetStage policy
    else .error "policy.maxPerPaymentUsd must be > 0"
  | none => validateBudgetStage policy

/-! ## Guard errors and construction (`src/utils/errors.ts`, `src/guard.ts`) -/

/-- The stable machine-readable reason codes (`GuardErrorCode`). -/
inductive GuardErrorCode where
  | POLICY_INVALID
  | PAYMENT_BLOCKED_PER_PAYMENT_CAP
  | PAYMENT_BLOCKED_BUDGET_WINDOW
  | PAYMENT_BLOCKED_NO_ACCEPTABLE_REQUIREMENTS
  | RESPONSE_CONDITION_FAILED
deriving DecidableEq, Repr

/-- A `GuardError`: stable code, human explanation, optional details (the structured
details payload is modelled as its string rendering where a claim needs it). -/
structure GuardError where
  code : GuardErrorCode
  explanation : String
  details : Option String := none
deriving DecidableEq, Repr

/-- The guard engine state produced by the `X402Guard` constructor: the validated
policy and, when a budget policy is configured, a fresh rolling budget with
`windowMs` and `usdToUsdcBaseUnits(limitUsd)`. -/
structure GuardInstance where
  policy : GuardPolicy
  budget : Option RollingBudget

/-- The `X402Guard` constructor up to its effectful wiring: `validatePolicy` inside
`try`/`catch`; any validation failure is rethrown as a `GuardError` with code
`POLICY_INVALID` and no engine state is ever produced. -/
def mkGuard (policy : GuardPolicy) : Except GuardError GuardInstance :=
  match validatePolicy policy with
  | .error e => .error ⟨.POLICY_INVALID, "Invalid guard policy.", some e⟩
  | .ok _ =>
    .ok ⟨policy, policy.budget.map
      (fun bw => ⟨bw.windowMs, usdToUsdcBaseUnits bw.limitUsd, []⟩)⟩

theorem validateConditionsStage_ok_iff (p : GuardPolicy) :
    validateConditionsStage p = .ok ()
      ↔ (∀ c m, p.conditions = some c → c.maxLatencyMs = some m → 0 < m) := by
  unfold validateConditionsStage
  cases hc : p.conditions with
  | none => simp
  | some c =>
    dsimp only
    cases hm : c.maxLatencyMs with
    | none =>
      dsimp only
      constructor
      · intro _ c' m hc' hm'
        obtain rfl : c = c' := by injection hc'
        rw [hm] at hm'
        cases hm'
      · intro _
        rfl
    | some m =>
      dsimp only
      by_cases h0 : 0 < m
      · rw [if_pos h0]
        constructor
        · intro _ c' m' hc' hm'
          obtain rfl : c = c' := by injection hc'
          rw [hm] at hm'
          obtain rfl : m = m' := by injection hm'
          exact h0
        · intro _
          rfl
      · rw [if_neg h0]
        constructor
        · intro habs
          cases habs
        · intro hall
          exact absurd (hall c m rfl hm) h0

theorem validateBudgetStage_ok_iff (p : GuardPolicy) :
    validateBudgetStage p = .ok ()
      ↔ ((∀ bw, p.budget = some bw → 0 < bw.limitUsd ∧ 0 < bw.windowMs) ∧
         (∀ c m, p.conditions = some c → c.maxLatencyMs = some m → 0 < m)) := by
  unfold validateBudgetStage
  cases hb : p.budget with
  | none =>
    dsimp only
    rw [validateConditionsStage_ok_iff]
    constructor
    · intro h
      refine ⟨?_, h⟩
      intro bw hbw
      cases hbw
    · intro h
      exact h.2
  | some bw =>
    dsimp only
    by_cases hl : 0 < bw.limitUsd
    · rw [if_pos hl]
      by_cases hw : 0 < bw.windowMs
      · rw [if_pos hw, validateConditionsStage_ok_iff]
        constructor
        · intro h
          refine ⟨?_, h⟩
          intro bw' hbw'
          obtain rfl : bw = bw' := by injection hbw'
          exact ⟨hl, hw⟩
        · intro h
          exact h.2
      · rw [if_neg hw]
        constructor
        · intro habs
          cases habs
        · intro h
          exact absurd (h.1 bw rfl).2 hw
    · rw [if_neg hl]
      constructor
      · intro habs
        cases habs
      · intro h
        exact absurd (h.1 bw rfl).1 hl

theorem validatePolicy_ok_iff (p : GuardPolicy) :
    validatePolicy p = .ok ()
      ↔ ((∀ cap, p.maxPerPaymentUsd = some cap → 0 < cap) ∧
         (∀ bw, p.budget = some bw → 0 < bw.limitUsd ∧ 0 < bw.windowMs) ∧
         (∀ c m, p.conditions = some c → c.maxLatencyMs = some m → 0 < m)) := by
  unfold validatePolicy
  cases hc : p.maxPerPaymentUsd with
  | none =>
    dsimp only
    rw [validateBudgetStage_ok_iff]
    constructor
    · intro h
      refine ⟨?_, h⟩
      intro cap hcap
      cases hcap
    · intro h
      exact ⟨h.2.1, h.2.2⟩
  | some cap =>
    dsimp only
    by_cases h0 : 0 < cap
    · rw [if_pos h0, validateBudgetStage_ok_iff]
      constructor
      · intro h
        refine ⟨?_, h.1, h.2⟩
        intro cap' hcap'
        obtain rfl : cap = cap' := by injection hcap'
        exact h0
      · intro h
        exact ⟨h.2.1, h.2.2⟩
    · rw [if_neg h0]
      constructor
      · intro habs
        cases habs
      · intro h
        exact absurd (h.1 cap rfl) h0

theorem validateConditionsStage_error_msg (p : GuardPolicy) (e : String)
    (h : validateConditionsStage p = .error e) :
    e = "policy.conditions.maxLatencyMs must be > 0" := by
  unfold validateConditionsStage at h
  cases hc : p.conditions with
  | none =>
    rw [hc] at h
    cases h
  | some c =>
    rw [hc] at h
    dsimp only at h
    cases hm : c.maxLatencyMs with
    | none =>
      rw [hm] at h
      cases h
    | some m =>
      rw [hm] at h
      dsimp only at h
      by_cases h0 : 0 < m
      · rw [if_pos h0] at h
        cases h
      · rw [if_neg h0] at h
        cases h
        rfl

theorem validateBudgetStage_error_msg (p : GuardPolicy) (e : String)
    (h : validateBudgetStage p = .error e) :
    e = "policy.budget.limitUsd must be > 0"
    ∨ e = "policy.budget.windowMs must be > 0"
    ∨ e = "policy.conditions.maxLatencyMs must be > 0" := by
  unfold validateBudgetStage at h
  cases hb : p.budget with
  | none =>
    rw [hb] at h
    exact Or.inr (Or.inr (validateConditionsStage_error_msg p e h))
  | some bw =>
    rw [hb] at h
    dsimp only at h
    by_cases hl : 0 < bw.limitUsd
    · rw [if_pos hl] at h
      by_cases hw : 0 < bw.windowMs
      · rw [if_pos hw] at h
        exact Or.inr (Or.inr (validateConditionsStage_error_msg p e h))
      · rw [if_neg hw] at h
        cases h
        exact Or.inr (Or.inl rfl)
    · rw [if_neg hl] at h
      cases h
      exact Or.inl rfl

/-- C9 (confirmed): `validatePolicy` succeeds exactly when every present field is valid
(cap > 0; budget limit > 0 and window > 0; max latency > 0 — the required-fields value
can only be a list in this typed model, so the `Array.isArray` check always passes);
any failure carries one of the four descriptive configuration messages; and a failing
validation makes the constructor return a `POLICY_INVALID` `GuardError` instead of an
engine instance, so no call can ever be guarded by an invalidly-configured engine. -/
theorem c9_validatePolicy_fail_closed (p : GuardPolicy) :
    (validatePolicy p = .ok ()
      ↔ ((∀ cap, p.maxPerPaymentUsd = some cap → 0 < cap) ∧
         (∀ bw, p.budget = some bw → 0 < bw.limitUsd ∧ 0 < bw.windowMs) ∧
         (∀ c m, p.conditions = some c → c.maxLatencyMs = some m → 0 < m)))
    ∧ (∀ e, validatePolicy p = .error e →
        (e = "policy.maxPerPaymentUsd must be > 0"
          ∨ e = "policy.budget.limitUsd must be > 0"
          ∨ e = "policy.budget.windowMs must be > 0"
          ∨ e = "policy.conditions.maxLatencyMs must be > 0")
        ∧ mkGuard p = .error ⟨.POLICY_INVALID, "Invalid guard policy.", some e⟩) := by
  refine ⟨validatePolicy_ok_iff p, ?_⟩
  intro e h
  constructor
  · unfold validatePolicy at h
    cases hc : p.maxPerPaymentUsd with
    | none =>
      rw [hc] at h
      rcases validateBudgetStage_error_msg p e h with h' | h' | h'
      · exact Or.inr (Or.inl h')
      · exact Or.inr (Or.inr (Or.inl h'))
      · exact Or.inr (Or.inr (Or.inr h'))
    | some cap =>
      rw [hc] at h
      dsimp only at h
      by_cases h0 : 0 < cap
      · rw [if_pos h0] at h
        rcases validateBudgetStage_error_msg p e h with h' | h' | h'
        · exact Or.inr (Or.inl h')
        · exact Or.inr (Or.inr (Or.inl h'))
        · exact Or.inr (Or.inr (Or.inr h'))
      · rw [if_neg h0] at h
        cases h
        exact Or.inl rfl
  · unfold mkGuard
    rw [h]

/-- Witness for C9: the policy `{ maxPerPaymentUsd: 0 }` is invalid; the constructor
refuses to build the engine and reports `POLICY_INVALID` with the descriptive message. -/
theorem c9_validatePolicy_fail_closed_witness :
    (("policy.maxPerPaymentUsd must be > 0" = "policy.maxPerPaymentUsd must be > 0"
        ∨ "policy.maxPerPaymentUsd must be > 0" = "policy.budget.limitUsd must be > 0"
        ∨ "policy.maxPerPaymentUsd must be > 0" = "policy.budget.windowMs must be > 0"
        ∨ "policy.maxPerPaymentUsd must be > 0"
            = "policy.conditions.maxLatencyMs must be > 0")
      ∧ mkGuard ⟨some 0, none, none, false⟩
          = .error ⟨.POLICY_INVALID, "Invalid guard policy.",
              some "policy.maxPerPaymentUsd must be > 0"⟩) :=
  (c9_validatePolicy_fail_closed ⟨some 0, none, none, false⟩).2
    "policy.maxPerPaymentUsd must be > 0" (by rfl)

/-! ## Requirement evaluation (`src/policy/requirements.ts`) -/

/-- The audit snapshot of a requirement: `Pick<..., "scheme" | "network" | "amount" |
"asset" | "payTo">`. -/
structure RequirementSnapshot where
  scheme : String
  network : String
  amount : Option String
  asset : String
  payTo : String
deriving DecidableEq, Repr

/-- The only rejection reason emitted by the evaluator. -/
inductive RejectReason where
  | ABOVE_PER_PAYMENT_CAP
deriving DecidableEq, Repr

/-- One entry of the `rejected` output (`RequirementRejection`). -/
structure RequirementRejection where
  requirement : RequirementSnapshot
  reason : RejectReason
deriving DecidableEq, Repr

def snapshotOf (r : PaymentRequirements) : RequirementSnapshot :=
  ⟨r.scheme, r.network, r.amount, r.asset, r.payTo⟩

/-- The sort key of the cheapest-first comparator: `parseUsdcAmountBaseUnits(x) ?? 0n`. -/
def sortKey (r : PaymentRequirements) : Int :=
  (parseUsdcAmountBaseUnits r).getD 0

/-- The cheapest-first comparator `(a, b) => av < bv ? -1 : av > bv ? 1 : 0` induces
this boolean "less or equal" on sort keys; `Array.prototype.sort` is stable, so the
sort it performs is the stable ascending sort by `sortKey`. -/
def cheapestLE (a b : PaymentRequirements) : Bool :=
  sortKey a ≤ sortKey b

/-- The per-payment-cap filter loop of `evaluatePaymentRequirements`: requirements with
unparseable amounts are dropped with no rejection record (`if (amount === null) return
false;`); amounts above the cap are dropped and pushed onto `rejected`; the rest are
kept.  Rejections are produced in input order, as by the source's `push`. -/
def capFilter (cap : Int) :
    List PaymentRequirements → List PaymentRequirements × List RequirementRejection
  | [] => ([], [])
  | r :: rest =>
    let acc := capFilter cap rest
    match parseUsdcAmountBaseUnits r with
    | none => acc
    | some amount =>
      if amount ≤ cap then (r :: acc.1, acc.2)
      else (acc.1, ⟨snapshotOf r, .ABOVE_PER_PAYMENT_CAP⟩ :: acc.2)

/-- Result record of `evaluatePaymentRequirements`. -/
structure EvalResult where
  acceptable : List PaymentRequirements
  rejected : List RequirementRejection
deriving DecidableEq, Repr

/-- `evaluatePaymentRequirements(policy, reqs)`: apply the cap filter when a cap is
configured, then, when `selectCheapest` is set, stably sort the remaining requirements
ascending by parsed amount (unparseable amounts count as zero). -/
def evaluatePaymentRequirements (policy : GuardPolicy) (reqs : List PaymentRequirements) :
    EvalResult :=
  let filtered :=
    match policy.maxPerPaymentUsd with
    | none => (reqs, ([] : List RequirementRejection))
    | some usd => capFilter (usdToUsdcBaseUnits usd) reqs
  let acceptable :=
    if policy.selectCheapest then filtered.1.mergeSort cheapestLE else filtered.1
  ⟨acceptable, filtered.2⟩

/-- The `acceptable` list before the optional cheapest-first sort. -/
def preAcceptable (policy : GuardPolicy) (reqs : List PaymentRequirements) :
    List PaymentRequirements :=
  match policy.maxPerPaymentUsd with
  | none => reqs
  | some usd => (capFilter (usdToUsdcBaseUnits usd) reqs).1

/-- Requirement kept by the cap filter: parseable and at most the cap. -/
def inCap (cap : Int) (r : PaymentRequirements) : Bool :=
  match parseUsdcAmountBaseUnits r with
  | some a => a ≤ cap
  | none => false

/-- Requirement rejected by the cap filter: parseable and strictly above the cap. -/
def overCap (cap : Int) (r : PaymentRequirements) : Bool :=
  match parseUsdcAmountBaseUnits r with
  | some a => cap < a
  | none => false

/-- Requirement whose amount does not parse. -/
def unparseableAmount (r : PaymentRequirements) : Bool :=
  (parseUsdcAmountBaseUnits r).isNone

theorem capFilter_fst (cap : Int) (reqs : List PaymentRequirements) :
    (capFilter cap reqs).1 = reqs.filter (inCap cap) := by
  induction reqs with
  | nil => rfl
  | cons r rest ih =>
    cases hp : parseUsdcAmountBaseUnits r with
    | none =>
      rw [List.filter_cons_of_neg (by simp [inCap, hp])]
      simp only [capFilter, hp]
      exact ih
    | some a =>
      by_cases hle : a ≤ cap
      · rw [List.filter_cons_of_pos (by simp [inCap, hp, hle])]
        simp only [capFilter, hp, if_pos hle]
        rw [ih]
      · rw [List.filter_cons_of_neg (by simp [inCap, hp, hle])]
        simp only [capFilter, hp, if_neg hle]
        exact ih

theorem capFilter_snd (cap : Int) (reqs : List PaymentRequirements) :
    (capFilter cap reqs).2 = (reqs.filter (overCap cap)).map
      (fun r => (⟨snapshotOf r, .ABOVE_PER_PAYMENT_CAP⟩ : RequirementRejection)) := by
  induction reqs with
  | nil => rfl
  | cons r rest ih =>
    cases hp : parseUsdcAmountBaseUnits r with
    | none =>
      rw [List.filter_cons_of_neg (by simp [overCap, hp])]
      simp only [capFilter, hp]
      exact ih
    | some a =>
      by_cases hle : a ≤ cap
      · rw [List.filter_cons_of_neg (by simp [overCap, hp, not_lt.mpr hle])]
        simp only [capFilter, hp, if_pos hle]
        exact ih
      · rw [List.filter_cons_of_pos (by simp [overCap, hp, not_le.mp hle])]
        simp only [capFilter, hp, if_neg hle]
        rw [List.map_cons, ih]

theorem reqs_partition (cap : Int) (reqs : List PaymentRequirements) :
    reqs.Perm (reqs.filter (inCap cap) ++ reqs.filter (overCap cap)
      ++ reqs.filter unparseableAmount) := by
  induction reqs with
  | nil => rfl
  | cons r rest ih =>
    cases hp : parseUsdcAmountBaseUnits r with
    | none =>
      rw [List.filter_cons_of_neg (by simp [inCap, hp]),
        List.filter_cons_of_neg (by simp [overCap, hp]),
        List.filter_cons_of_pos (by simp [unparseableAmount, hp])]
      exact (ih.cons r).trans List.perm_middle.symm
    | some a =>
      by_cases hle : a ≤ cap
      · rw [List.filter_cons_of_pos (by simp [inCap, hp, hle]),
          List.filter_cons_of_neg (by simp [overCap, hp, not_lt.mpr hle]),
          List.filter_cons_of_neg (by simp [unparseableAmount, hp])]
        exact ih.cons r
      · rw [List.filter_cons_of_neg (by simp [inCap, hp, hle]),
          List.filter_cons_of_pos (by simp [overCap, hp, not_le.mp hle]),
          List.filter_cons_of_neg (by simp [unparseableAmount, hp]),
          List.append_assoc]
        have ih' : (r :: rest).Perm
            (r :: (rest.filter (inCap cap)
              ++ (rest.filter (overCap cap) ++ rest.filter unparseableAmount))) := by
          have h2 := ih.cons r
          rwa [List.append_assoc] at h2
        exact ih'.trans List.perm_middle.symm

theorem evaluate_rejected (policy : GuardPolicy) (reqs : List PaymentRequirements)
    (usd : ℚ) (h : policy.maxPerPaymentUsd = some usd) :
    (evaluatePaymentRequirements policy reqs).rejected
      = (capFilter (usdToUsdcBaseUnits usd) reqs).2 := by
  unfold evaluatePaymentRequirements
  rw [h]

theorem evaluate_acceptable (policy : GuardPolicy) (reqs : List PaymentRequirements) :
    (evaluatePaymentRequirements policy reqs).acceptable
      = if policy.selectCheapest then (preAcceptable policy reqs).mergeSort cheapestLE
        else preAcceptable policy reqs := by
  unfold evaluatePaymentRequirements preAcceptable
  cases h : policy.maxPerPaymentUsd <;> rfl

theorem preAcceptable_of_cap (policy : GuardPolicy) (reqs : List PaymentRequirements)
    (usd : ℚ) (h : policy.maxPerPaymentUsd = some usd) :
    preAcceptable policy reqs = reqs.filter (inCap (usdToUsdcBaseUnits usd)) := by
  unfold preAcceptable
  rw [h]
  exact capFilter_fst _ _

/-- A concrete payment requirement used by witnesses and counterexamples. -/
def reqWithAmount (amt : Option String) : PaymentRequirements :=
  ⟨"exact", "eip155:84532", amt, "USDC", "0xdeadbeef", 60⟩

/-- C1 (counterexample): the claim is false as stated — a requirement whose amount does
not parse (here `"abc"`) is dropped from `acceptable` *without* any entry in
`rejected`: with a cap configured, the evaluator returns `⟨[], []⟩`, so the
requirement appears in neither output and the union property fails. -/
theorem c1_unparseable_dropped_silently :
    parseUsdcAmountBaseUnits (reqWithAmount (some "abc")) = none
    ∧ evaluatePaymentRequirements ⟨some 1, none, none, false⟩
        [reqWithAmount (some "abc")] = ⟨[], []⟩ :=
  ⟨rfl, rfl⟩

/-- C1 (amended): with a configured cap `C = usdToUsdcBaseUnits usd`: every acceptable
requirement has a parsed amount `≤ C`; every requirement whose parsed amount exceeds
`C` appears in `rejected` (in input order) with reason `ABOVE_PER_PAYMENT_CAP`; the
acceptable set is a permutation of the in-cap requirements; and the input partitions
into the acceptable originals, the rejected originals, and the *unparseable*
requirements — the last are dropped silently, with no rejection record (fail-closed
but unrecorded), which is the one departure from the claim as written. -/
theorem c1_cap_filter_partition (policy : GuardPolicy) (reqs : List PaymentRequirements)
    (usd : ℚ) (h : policy.maxPerPaymentUsd = some usd) :
    (∀ r ∈ (evaluatePaymentRequirements policy reqs).acceptable,
        ∃ a, parseUsdcAmountBaseUnits r = some a ∧ a ≤ usdToUsdcBaseUnits usd)
    ∧ (evaluatePaymentRequirements policy reqs).rejected
        = (reqs.filter (overCap (usdToUsdcBaseUnits usd))).map
            (fun r => (⟨snapshotOf r, .ABOVE_PER_PAYMENT_CAP⟩ : RequirementRejection))
    ∧ (evaluatePaymentRequirements policy reqs).acceptable.Perm
        (reqs.filter (inCap (usdToUsdcBaseUnits usd)))
    ∧ reqs.Perm (reqs.filter (inCap (usdToUsdcBaseUnits usd))
        ++ reqs.filter (overCap (usdToUsdcBaseUnits usd))
        ++ reqs.filter unparseableAmount) := by
  have hperm : (evaluatePaymentRequirements policy reqs).acceptable.Perm
      (reqs.filter (inCap (usdToUsdcBaseUnits usd))) := by
    rw [evaluate_acceptable]
    by_cases hs : policy.selectCheapest = true
    · rw [if_pos hs, preAcceptable_of_cap policy reqs usd h]
      exact List.mergeSort_perm _ _
    · rw [if_neg hs, preAcceptable_of_cap policy reqs usd h]
  refine ⟨?_, ?_, hperm, reqs_partition _ reqs⟩
  · intro r hr
    have hmem : r ∈ reqs.filter (inCap (usdToUsdcBaseUnits usd)) :=
      hperm.mem_iff.mp hr
    have hin : inCap (usdToUsdcBaseUnits usd) r = true := List.of_mem_filter hmem
    cases hp : parseUsdcAmountBaseUnits r with
    | none => simp [inCap, hp] at hin
    | some a =>
      refine ⟨a, rfl, ?_⟩
      simpa [inCap, hp] using hin
  · rw [evaluate_rejected policy reqs usd h, capFilter_snd]

theorem usdToUsdcBaseUnits_one : usdToUsdcBaseUnits 1 = 1000000 := by
  norm_num [usdToUsdcBaseUnits]

/-- Witness for C1 (amended): cap 1 USD (= 1000000 base units); requirements with
amounts 5000000 and 50000: the expensive one is rejected with
`ABOVE_PER_PAYMENT_CAP` and the cheap one remains acceptable. -/
theorem c1_cap_filter_partition_witness :
    (evaluatePaymentRequirements ⟨some 1, none, none, false⟩
        [reqWithAmount (some "5000000"), reqWithAmount (some "50000")]).rejected
      = [⟨snapshotOf (reqWithAmount (some "5000000")), .ABOVE_PER_PAYMENT_CAP⟩]
    ∧ (evaluatePaymentRequirements ⟨some 1, none, none, false⟩
        [reqWithAmount (some "5000000"), reqWithAmount (some "50000")]).acceptable.Perm
        [reqWithAmount (some "50000")] := by
  have h := c1_cap_filter_partition ⟨some 1, none, none, false⟩
    [reqWithAmount (some "5000000"), reqWithAmount (some "50000")] 1 rfl
  constructor
  · rw [h.2.1, usdToUsdcBaseUnits_one]
    decide
  · have hp := h.2.2.1
    rw [usdToUsdcBaseUnits_one] at hp
    have heq : [reqWithAmount (some "5000000"), reqWithAmount (some "50000")].filter
        (inCap 1000000) = [reqWithAmount (some "50000")] := by decide
    rwa [heq] at hp

theorem cheapestLE_trans : ∀ a b c : PaymentRequirements,
    cheapestLE a b = true → cheapestLE b c = true → cheapestLE a c = true := by
  intro a b c hab hbc
  simp only [cheapestLE, decide_eq_true_eq] at hab hbc ⊢
  exact le_trans hab hbc

theorem cheapestLE_total : ∀ a b : PaymentRequirements,
    (cheapestLE a b || cheapestLE b a) = true := by
  intro a b
  simp only [cheapestLE, Bool.or_eq_true, decide_eq_true_eq]
  exact le_total _ _

/-- Requirements sharing one sort key, for the stability statement. -/
def sameKey (k : Int) (r : PaymentRequirements) : Bool :=
  sortKey r = k

/-- C6 (confirmed): with cheapest-first enabled, `acceptable` is sorted ascending by
parsed amount (unparseable amounts counting as zero — last conjunct), it is a
permutation of its pre-sort order, and the sort is stable: for every key, the
subsequence of requirements with that key is exactly the pre-sort subsequence, so
equal-amount requirements keep their original relative order.  Side-effect-freedom is
inherent: the evaluation is a pure function of its inputs. -/
theorem c6_cheapest_sort_sorted_stable (policy : GuardPolicy)
    (reqs : List PaymentRequirements) (h : policy.selectCheapest = true) :
    (evaluatePaymentRequirements policy reqs).acceptable.Pairwise
        (fun a b => sortKey a ≤ sortKey b)
    ∧ (evaluatePaymentRequirements policy reqs).acceptable.Perm (preAcceptable policy reqs)
    ∧ (∀ k : Int, (evaluatePaymentRequirements policy reqs).acceptable.filter (sameKey k)
        = (preAcceptable policy reqs).filter (sameKey k))
    ∧ (∀ r, parseUsdcAmountBaseUnits r = none → sortKey r = 0) := by
  have hacc : (evaluatePaymentRequirements policy reqs).acceptable
      = (preAcceptable policy reqs).mergeSort cheapestLE := by
    rw [evaluate_acceptable, if_pos h]
  refine ⟨?_, ?_, ?_, ?_⟩
  · rw [hacc]
    have hs := List.sorted_mergeSort cheapestLE_trans cheapestLE_total
      (preAcceptable policy reqs)
    exact hs.imp (fun hab => by simpa [cheapestLE] using hab)
  · rw [hacc]
    exact List.mergeSort_perm _ _
  · intro k
    rw [hacc]
    have hc_pair : ((preAcceptable policy reqs).filter (sameKey k)).Pairwise
        (fun a b => cheapestLE a b = true) := by
      apply List.pairwise_of_forall_mem_list
      intro a ha b hb
      have hka : sortKey a = k := by
        simpa [sameKey] using List.of_mem_filter ha
      have hkb : sortKey b = k := by
        simpa [sameKey] using List.of_mem_filter hb
      simp [cheapestLE, hka, hkb]
    have h1 : ((preAcceptable policy reqs).filter (sameKey k)).Sublist
        ((preAcceptable policy reqs).mergeSort cheapestLE) :=
      List.sublist_mergeSort cheapestLE_trans cheapestLE_total hc_pair
        (List.filter_sublist _)
    have h2 : (((preAcceptable policy reqs).mergeSort cheapestLE).filter
        (sameKey k)).Perm ((preAcceptable policy reqs).filter (sameKey k)) :=
      (List.mergeSort_perm (preAcceptable policy reqs) cheapestLE).filter (sameKey k)
    have h3 := h1.filter (sameKey k)
    rw [List.filter_eq_self.mpr (fun a ha => List.of_mem_filter ha)] at h3
    exact (h3.eq_of_length h2.length_eq.symm).symm
  · intro r hr
    simp [sortKey, hr]

unseal List.merge List.mergeSort in
/-- Witness for C6: cheapest-first with amounts 100, 10, 50 sorts the acceptable list
ascending to 10, 50, 100. -/
theorem c6_cheapest_sort_sorted_stable_witness :
    (evaluatePaymentRequirements ⟨none, none, none, true⟩
        [reqWithAmount (some "100"), reqWithAmount (some "10"),
          reqWithAmount (some "50")]).acceptable.Pairwise
      (fun a b => sortKey a ≤ sortKey b)
    ∧ (evaluatePaymentRequirements ⟨none, none, none, true⟩
        [reqWithAmount (some "100"), reqWithAmount (some "10"),
          reqWithAmount (some "50")]).acceptable
      = [reqWithAmount (some "10"), reqWithAmount (some "50"),
          reqWithAmount (some "100")] :=
  ⟨(c6_cheapest_sort_sorted_stable ⟨none, none, none, true⟩
      [reqWithAmount (some "100"), reqWithAmount (some "10"),
        reqWithAmount (some "50")] rfl).1,
    rfl⟩

/-! ## Response condition gate (`src/policy/conditions.ts`) -/

/-- One `RESPONSE_CONDITION_FAILED` failure of `enforceResponseConditions`, tagged by
which check threw, with the context fields the source attaches to the `GuardError`. -/
inductive CondFailure where
  | latencyExceeded (latencyMs maxLatencyMs status : Int)
  | badStatus (status latencyMs : Int)
  | invalidJson (status latencyMs : Int)
  | missingFields (status latencyMs : Int) (missing : List String)
deriving DecidableEq, Repr

/-- Every condition failure carries the same stable code. -/
def CondFailure.code : CondFailure → GuardErrorCode :=
  fun _ => .RESPONSE_CONDITION_FAILED

/-- `v === undefined || v === null` on the result of a property access. -/
def isMissingVal : Option JsVal → Bool
  | none => true
  | some .jnull => true
  | some _ => false

/-- The max-latency check (first check of `enforceResponseConditions`). -/
def checkLatency (c : GuardConditions) (status latencyMs : Int) : Option CondFailure :=
  match c.maxLatencyMs with
  | some maxL =>
    if maxL < latencyMs then some (.latencyExceeded latencyMs maxL status) else none
  | none => none

/-- The require-2xx status check (second check). -/
def checkStatus (c : GuardConditions) (status latencyMs : Int) : Option CondFailure :=
  if c.requireHttp2xx = true ∧ ¬(200 ≤ status ∧ status < 300) then
    some (.badStatus status latencyMs)
  else none

/-- The required-JSON-fields check (third check).  `body` is the outcome of parsing the
cloned response body (`none` = not valid JSON); it is only consulted when a non-empty
field list is configured.  All missing fields are collected and reported in one
failure. -/
def checkRequiredFields (c : GuardConditions) (status latencyMs : Int)
    (body : Option JsVal) : Option CondFailure :=
  match c.requiredJsonFields with
  | none => none
  | some fields =>
    if 0 < fields.length then
      match body with
      | none => some (.invalidJson status latencyMs)
      | some b =>
        let missing := fields.filter (fun f => isMissingVal (jsProp b f))
        if 0 < missing.length then some (.missingFields status latencyMs missing)
        else none
    else none

/-- `enforceResponseConditions(res, startedAtMs, conditions)`: no-op without a
conditions policy; otherwise run the three checks in source order, stopping at the
first failure.  `status` and `latencyMs` abstract `res.status` and
`Date.now() - startedAtMs`; `body` abstracts the JSON parse of the cloned body. -/
def enforceResponseConditions (conditions : Option GuardConditions)
    (status latencyMs : Int) (body : Option JsVal) : Option CondFailure :=
  match conditions with
  | none => none
  | some c =>
    (checkLatency c status latencyMs) <|> (checkStatus c status latencyMs)
      <|> (checkRequiredFields c status latencyMs body)

/-- C7 (confirmed): the gate evaluates max-latency first, then require-2xx, then the
JSON-field checks, stopping at the first failure: an exceeded latency bound fails with
the latency failure whatever the status and body are; and when the latency check
passes, `requireHttp2xx` is set and the status is not 2xx (e.g. 500), the gate fails
with the status failure — whose code is `RESPONSE_CONDITION_FAILED` — for every body,
so the JSON-field check is never reached. -/
theorem c7_gate_check_order (c : GuardConditions) (status latencyMs : Int)
    (body : Option JsVal) :
    (∀ maxL, c.maxLatencyMs = some maxL → maxL < latencyMs →
      enforceResponseConditions (some c) status latencyMs body
        = some (.latencyExceeded latencyMs maxL status))
    ∧ ((c.maxLatencyMs = none ∨ ∃ maxL, c.maxLatencyMs = some maxL ∧ latencyMs ≤ maxL) →
        c.requireHttp2xx = true → ¬(200 ≤ status ∧ status < 300) →
        enforceResponseConditions (some c) status latencyMs body
          = some (.badStatus status latencyMs)
        ∧ (CondFailure.badStatus status latencyMs).code = .RESPONSE_CONDITION_FAILED) := by
  constructor
  · intro maxL hmax hlt
    unfold enforceResponseConditions checkLatency
    dsimp only
    rw [hmax]
    dsimp only
    rw [if_pos hlt]
    rfl
  · intro hlat h2xx hstat
    have hl : checkLatency c status latencyMs = none := by
      unfold checkLatency
      rcases hlat with h | ⟨maxL, hmax, hle⟩
      · rw [h]
      · rw [hmax]
        dsimp only
        rw [if_neg (not_lt.mpr hle)]
    have hs : checkStatus c status latencyMs = some (.badStatus status latencyMs) := by
      unfold checkStatus
      rw [if_pos ⟨h2xx, hstat⟩]
    refine ⟨?_, rfl⟩
    unfold enforceResponseConditions
    dsimp only
    rw [hl, hs]
    rfl

/-- Witness for C7: `requireHttp2xx` with max latency 1000; a 500 response at latency 5
fails with the status failure regardless of its (valid, complete) body. -/
theorem c7_gate_check_order_witness :
    enforceResponseConditions
        (some ⟨true, some 1000, some ["result"]⟩) 500 5
        (some (.jobj [("result", .jstr "42")]))
      = some (.badStatus 500 5)
    ∧ (CondFailure.badStatus 500 5).code = .RESPONSE_CONDITION_FAILED :=
  (c7_gate_check_order ⟨true, some 1000, some ["result"]⟩ 500 5
      (some (.jobj [("result", .jstr "42")]))).2
    (Or.inr ⟨1000, rfl, by decide⟩) rfl (by decide)

/-- C8 (confirmed): when a non-empty required-field list is configured and the earlier
checks pass, a field whose value is absent and a field whose value is explicit `null`
are both classified as missing; if any field is missing the gate raises exactly one
failure — with code `RESPONSE_CONDITION_FAILED` — listing every missing field name (in
configuration order), and passes otherwise. -/
theorem c8_required_fields_batched (c : GuardConditions) (status latencyMs : Int)
    (b : JsVal) (fields : List String) (hf : c.requiredJsonFields = some fields)
    (hne : fields ≠ [])
    (hl : checkLatency c status latencyMs = none)
    (hs : checkStatus c status latencyMs = none) :
    (∀ f, isMissingVal (jsProp b f) = true
        ↔ (jsProp b f = none ∨ jsProp b f = some .jnull))
    ∧ (fields.filter (fun f => isMissingVal (jsProp b f)) ≠ [] →
        enforceResponseConditions (some c) status latencyMs (some b)
          = some (.missingFields status latencyMs
              (fields.filter (fun f => isMissingVal (jsProp b f)))))
    ∧ ((CondFailure.missingFields status latencyMs
          (fields.filter (fun f => isMissingVal (jsProp b f)))).code
        = .RESPONSE_CONDITION_FAILED)
    ∧ (fields.filter (fun f => isMissingVal (jsProp b f)) = [] →
        enforceResponseConditions (some c) status latencyMs (some b) = none) := by
  have henf : enforceResponseConditions (some c) status latencyMs (some b)
      = checkRequiredFields c status latencyMs (some b) := by
    unfold enforceResponseConditions
    dsimp only
    rw [hl, hs]
    rfl
  refine ⟨?_, ?_, rfl, ?_⟩
  · intro f
    cases hv : jsProp b f with
    | none => simp [isMissingVal]
    | some v =>
      cases v <;> simp [isMissingVal]
  · intro hmiss
    rw [henf]
    unfold checkRequiredFields
    rw [hf]
    dsimp only
    rw [if_pos (by cases fields with | nil => exact absurd rfl hne | cons a l => simp)]
    rw [if_pos (by cases hm : fields.filter (fun f => isMissingVal (jsProp b f)) with
      | nil => exact absurd hm hmiss
      | cons a l => simp [hm])]
  · intro hmiss
    rw [henf]
    unfold checkRequiredFields
    rw [hf]
    dsimp only
    rw [if_pos (by cases fields with | nil => exact absurd rfl hne | cons a l => simp)]
    rw [hmiss]
    rfl

/-- Witness for C8: required field `"result"`, a 200 response whose body is
`{ok: true, result: null}`: the explicit-null field counts as missing and the gate
raises the single failure listing `["result"]`. -/
theorem c8_required_fields_batched_witness :
    enforceResponseConditions (some ⟨false, none, some ["result"]⟩) 200 5
        (some (.jobj [("ok", .jbool true), ("result", .jnull)]))
      = some (.missingFields 200 5 ["result"]) := by
  have h := c8_required_fields_batched ⟨false, none, some ["result"]⟩ 200 5
    (.jobj [("ok", .jbool true), ("result", .jnull)]) ["result"] rfl
    (by decide) rfl (by decide)
  have hfil : (["result"] : List String).filter
      (fun f => isMissingVal
        (jsProp (.jobj [("ok", .jbool true), ("result", .jnull)]) f))
      = ["result"] := by decide
  have hm := h.2.1 (by rw [hfil]; decide)
  rw [hfil] at hm
  exact hm

/-! ## Orchestrating guard (`src/guard.ts`) -/

/-- Prefix test on character lists (building block of `String.prototype.includes`). -/
def hasPrefixL : List Char → List Char → Bool
  | [], _ => true
  | _ :: _, [] => false
  | a :: ps, b :: ss => a = b && hasPrefixL ps ss

/-- Substring occurrence test on character lists. -/
def includesL (pat : List Char) : List Char → Bool
  | [] => hasPrefixL pat []
  | c :: rest => hasPrefixL pat (c :: rest) || includesL pat rest

/-- JavaScript `s.includes(pat)`. -/
def jsIncludes (s pat : String) : Bool :=
  includesL pat.toList s.toList

/-- The abort reason built by the budget hook:
`Blocked by budget window policy: total=... + next=... exceeds limit.` -/
def abortReason (total next : Int) : String :=
  "Blocked by budget window policy: total=" ++ toString total ++ " + next="
    ++ toString next ++ " exceeds limit."

/-- Result of the before-payment-creation hook: proceed, or abort with a reason. -/
inductive HookOutcome where
  | proceed
  | abortPayment (reason : String)
deriving DecidableEq, Repr

/-- The `onBeforePaymentCreation` hook wired by the `X402Guard` constructor: parse the
selected requirement's amount; when it does not parse, `return` — the hook neither
aborts nor consults the budget, so signing proceeds; otherwise run the budget
admission check and abort with the reason string when it rejects. -/
def onBeforePaymentCreation (budget : Option RollingBudget)
    (selected : PaymentRequirements) (now : Int) : HookOutcome × Option RollingBudget :=
  match parseUsdcAmountBaseUnits selected with
  | none => (.proceed, budget)
  | some amount =>
    match budget with
    | none => (.proceed, none)
    | some b =>
      match b.canSpend amount now with
      | (.ok, b') => (.proceed, some b')
      | (.rejected total, b') => (.abortPayment (abortReason total amount), some b')

/-- The `onAfterPaymentCreation` hook: record the spend, unless the amount does not
parse (then nothing is recorded). -/
def onAfterPaymentCreation (budget : Option RollingBudget)
    (selected : PaymentRequirements) (now : Int) : Option RollingBudget :=
  match parseUsdcAmountBaseUnits selected with
  | none => budget
  | some amount => budget.map (fun b => b.record amount now)

/-- `X402Guard.applyRequirementPolicies`: evaluate the requirements and fail closed
with a `PAYMENT_BLOCKED_NO_ACCEPTABLE_REQUIREMENTS` `GuardError` when the acceptable
list comes back empty. -/
def applyRequirementPolicies (policy : GuardPolicy) (reqs : List PaymentRequirements) :
    Except GuardError (List PaymentRequirements) :=
  let res := evaluatePaymentRequirements policy reqs
  if res.acceptable.isEmpty then
    .error ⟨.PAYMENT_BLOCKED_NO_ACCEPTABLE_REQUIREMENTS,
      "No acceptable payment requirements remain after applying guard policy.", none⟩
  else .ok res.acceptable

/-- An error propagated out of the wrapped payment fetch: its JavaScript `message`
and, when it is a `GuardError`, the code it carries. -/
structure PropagatedFailure where
  message : String
  guardCode : Option GuardErrorCode
deriving DecidableEq, Repr

/-- The `catch` block of `X402Guard.fetch` around `paidFetch`: when the message
contains `"abort"` or `"Blocked by"`, emit a deny decision record with code
`PAYMENT_BLOCKED_BUDGET_WINDOW` and raise a fresh `GuardError` with that code;
otherwise emit a deny record with the generic `POLICY_INVALID` code and re-raise the
original error unchanged.  The first component is the code carried by the emitted
decision record; the second is the error raised to the caller. -/
def fetchOnPaidFetchError (err : PropagatedFailure) :
    GuardErrorCode × PropagatedFailure :=
  if jsIncludes err.message "abort" = true ∨ jsIncludes err.message "Blocked by" = true
  then (.PAYMENT_BLOCKED_BUDGET_WINDOW,
    ⟨err.message, some .PAYMENT_BLOCKED_BUDGET_WINDOW⟩)
  else (.POLICY_INVALID, err)

theorem hasPrefixL_append (p : List Char) : ∀ (s t : List Char),
    hasPrefixL p s = true → hasPrefixL p (s ++ t) = true := by
  induction p with
  | nil =>
    intro s t _
    rfl
  | cons a ps ih =>
    intro s t h
    cases s with
    | nil => cases h
    | cons b ss =>
      simp only [hasPrefixL, Bool.and_eq_true] at h
      simp only [List.cons_append, hasPrefixL, Bool.and_eq_true]
      exact ⟨h.1, ih ss t h.2⟩

theorem includesL_of_hasPrefixL (pat s : List Char) (h : hasPrefixL pat s = true) :
    includesL pat s = true := by
  cases s with
  | nil => exact h
  | cons c rest =>
    simp only [includesL, Bool.or_eq_true]
    exact Or.inl h

theorem jsIncludes_abortReason (total next : Int) :
    jsIncludes (abortReason total next) "Blocked by" = true := by
  unfold jsIncludes abortReason
  apply includesL_of_hasPrefixL
  have happ : ∀ s t : String, (s ++ t).toList = s.toList ++ t.toList :=
    fun s t => String.data_append s t
  rw [happ, happ, happ, happ]
  apply hasPrefixL_append
  apply hasPrefixL_append
  apply hasPrefixL_append
  apply hasPrefixL_append
  decide

/-- C3 (counterexample): the claim is false for the empty-filter case — when the
`PAYMENT_BLOCKED_NO_ACCEPTABLE_REQUIREMENTS` `GuardError` raised by the filtering hook
propagates out of the wrapped fetch (its message contains neither `"abort"` nor
`"Blocked by"`), the deny decision record emitted by `X402Guard.fetch` carries the
generic `POLICY_INVALID` code, not the matching
`PAYMENT_BLOCKED_NO_ACCEPTABLE_REQUIREMENTS`. -/
theorem c3_no_acceptable_record_code_mismatch :
    (fetchOnPaidFetchError
        ⟨"No acceptable payment requirements remain after applying guard policy.",
          some .PAYMENT_BLOCKED_NO_ACCEPTABLE_REQUIREMENTS⟩).1
      = .POLICY_INVALID
    ∧ GuardErrorCode.POLICY_INVALID
        ≠ GuardErrorCode.PAYMENT_BLOCKED_NO_ACCEPTABLE_REQUIREMENTS := by
  constructor
  · decide
  · decide

/-- C3 (amended): blocks are never swallowed, but only the budget case's decision
record carries its matching code.  In detail: (1) the filtering hook raises the
`PAYMENT_BLOCKED_NO_ACCEPTABLE_REQUIREMENTS` `GuardError` exactly when filtering
empties the acceptable list; (2) the budget hook's abort reason always contains
`"Blocked by"`, so (3) the fetch catch block converts it into a deny record with code
`PAYMENT_BLOCKED_BUDGET_WINDOW` and raises a `GuardError` with that same code; (4) a
propagated error without the abort markers — such as the empty-filter `GuardError` —
is re-raised unchanged (the block reaches the caller) while its deny record carries
the generic `POLICY_INVALID` code; and (5) the emitted record's code is never
`PAYMENT_BLOCKED_NO_ACCEPTABLE_REQUIREMENTS`, whatever error propagates. -/
theorem c3_block_conversion (policy : GuardPolicy) (reqs : List PaymentRequirements)
    (err : PropagatedFailure) (total next : Int) :
    ((evaluatePaymentRequirements policy reqs).acceptable = [] ↔
      applyRequirementPolicies policy reqs
        = .error ⟨.PAYMENT_BLOCKED_NO_ACCEPTABLE_REQUIREMENTS,
            "No acceptable payment requirements remain after applying guard policy.",
            none⟩)
    ∧ jsIncludes (abortReason total next) "Blocked by" = true
    ∧ (jsIncludes err.message "Blocked by" = true →
        fetchOnPaidFetchError err
          = (.PAYMENT_BLOCKED_BUDGET_WINDOW,
              ⟨err.message, some .PAYMENT_BLOCKED_BUDGET_WINDOW⟩))
    ∧ (jsIncludes err.message "abort" = false →
        jsIncludes err.message "Blocked by" = false →
        fetchOnPaidFetchError err = (.POLICY_INVALID, err))
    ∧ (fetchOnPaidFetchError err).1
        ≠ GuardErrorCode.PAYMENT_BLOCKED_NO_ACCEPTABLE_REQUIREMENTS := by
  refine ⟨?_, jsIncludes_abortReason total next, ?_, ?_, ?_⟩
  · unfold applyRequirementPolicies
    by_cases he : (evaluatePaymentRequirements policy reqs).acceptable.isEmpty = true
    · rw [if_pos he]
      constructor
      · intro _
        rfl
      · intro _
        exact List.isEmpty_iff.mp he
    · rw [if_neg he]
      constructor
      · intro h
        exact absurd (List.isEmpty_iff.mpr h) he
      · intro habs
        cases habs
  · intro h
    unfold fetchOnPaidFetchError
    rw [if_pos (Or.inr h)]
  · intro h1 h2
    unfold fetchOnPaidFetchError
    rw [if_neg (by simp [h1, h2])]
  · unfold fetchOnPaidFetchError
    by_cases hc : jsIncludes err.message "abort" = true
        ∨ jsIncludes err.message "Blocked by" = true
    · rw [if_pos hc]
      intro hx
      cases hx
    · rw [if_neg hc]
      intro hx
      cases hx

/-- Witness for C3: a propagated budget-abort message yields the deny record code
`PAYMENT_BLOCKED_BUDGET_WINDOW` and a raised `GuardError` with that code. -/
theorem c3_block_conversion_witness :
    fetchOnPaidFetchError
        ⟨"Blocked by budget window policy: total=10 + next=5 exceeds limit.", none⟩
      = (.PAYMENT_BLOCKED_BUDGET_WINDOW,
          ⟨"Blocked by budget window policy: total=10 + next=5 exceeds limit.",
            some .PAYMENT_BLOCKED_BUDGET_WINDOW⟩) :=
  (c3_block_conversion ⟨none, none, none, false⟩ []
      ⟨"Blocked by budget window policy: total=10 + next=5 exceeds limit.", none⟩
      10 5).2.2.1 (by decide)

/-- C4 (counterexample): the claim is false — with the budget already exhausted (limit
0, so *any* positive parsed amount is rejected, as the third conjunct shows for amount
1), a selected requirement whose amount field is absent makes the pre-signature hook
return `proceed`: signing is allowed with no admission check at all. -/
theorem c4_unparseable_amount_proceeds :
    parseUsdcAmountBaseUnits (reqWithAmount none) = none
    ∧ (onBeforePaymentCreation (some ⟨1000, 0, []⟩) (reqWithAmount none) 0).1
        = HookOutcome.proceed
    ∧ (onBeforePaymentCreation (some ⟨1000, 0, []⟩) (reqWithAmount (some "1")) 0).1
        = HookOutcome.abortPayment (abortReason 0 1) :=
  ⟨rfl, rfl, rfl⟩

/-- C4 (amended): when the selected requirement's amount is absent or not an integer
numeral, the pre-signature hook performs no budget admission check and returns
`proceed` with the budget untouched — signing goes ahead as if the requirement were
costless — and the post-creation hook records no spend.  Unparseable amounts are
treated as unacceptable only by the requirement filter, and only when a per-payment
cap is configured: then no unparseable requirement can appear in `acceptable` (and so
none can be selected for signing). -/
theorem c4_unparseable_skips_admission (budget : Option RollingBudget)
    (r : PaymentRequirements) (now : Int)
    (h : parseUsdcAmountBaseUnits r = none) :
    onBeforePaymentCreation budget r now = (.proceed, budget)
    ∧ onAfterPaymentCreation budget r now = budget
    ∧ (∀ (policy : GuardPolicy) (usd : ℚ) (reqs : List PaymentRequirements),
        policy.maxPerPaymentUsd = some usd →
        r ∉ (evaluatePaymentRequirements policy reqs).acceptable) := by
  refine ⟨?_, ?_, ?_⟩
  · unfold onBeforePaymentCreation
    rw [h]
  · unfold onAfterPaymentCreation
    rw [h]
  · intro policy usd reqs hcap hr
    have hperm : (evaluatePaymentRequirements policy reqs).acceptable.Perm
        (reqs.filter (inCap (usdToUsdcBaseUnits usd))) := by
      rw [evaluate_acceptable]
      by_cases hs : policy.selectCheapest = true
      · rw [if_pos hs, preAcceptable_of_cap policy reqs usd hcap]
        exact List.mergeSort_perm _ _
      · rw [if_neg hs, preAcceptable_of_cap policy reqs usd hcap]
    have hin : inCap (usdToUsdcBaseUnits usd) r = true :=
      List.of_mem_filter (hperm.mem_iff.mp hr)
    simp [inCap, h] at hin

/-- Witness for C4: concrete exhausted budget, absent amount field: both hooks leave
the budget untouched and the before-hook proceeds. -/
theorem c4_unparseable_skips_admission_witness :
    onBeforePaymentCreation (some ⟨1000, 0, []⟩) (reqWithAmount none) 0
      = (HookOutcome.proceed, some ⟨1000, 0, []⟩)
    ∧ onAfterPaymentCreation (some ⟨1000, 0, []⟩) (reqWithAmount none) 0
      = some ⟨1000, 0, []⟩ :=
  ⟨(c4_unparseable_skips_admission (some ⟨1000, 0, []⟩) (reqWithAmount none) 0 rfl).1,
    (c4_unparseable_skips_admission (some ⟨1000, 0, []⟩) (reqWithAmount none) 0
      rfl).2.1⟩
